import Mathlib

/-!
Shallow embedding of the health-habits LINE webhook pipeline
(`src/app/api/line/webhook/route.ts` and `src/lib/sheets.ts`).

Strings are modelled by Lean `String` (a list of characters); JavaScript
`text.includes(sub)` is substring search, `text.toLowerCase()` maps
`Char.toLower` over the characters (exact for the ASCII keywords the code
matches; Japanese characters are unaffected by lowercasing in both
runtimes).  Calendar dates are modelled by their epoch day number
(`Int`, days since 1970-01-01); the JavaScript `Date` runtime
(ISO formatting, ISO parsing, first-of-month construction, the current
clock) is an external collaborator and is modelled as an abstract
`JsRuntime` record of oracles.  JavaScript numbers are modelled as
`Option ℚ`: `some q` is an ordinary numeric value and `none` stands for
an abnormal value (`NaN`); arithmetic propagates `none`.
-/

/-- JS `a.includes(b)` helper: does `pat` occur at the head of the list? -/
def headMatch : List Char → List Char → Bool
  | [], _ => true
  | _ :: _, [] => false
  | p :: ps, c :: cs => p == c && headMatch ps cs

/-- Does `pat` occur anywhere in the list? -/
def occurs (pat : List Char) : List Char → Bool
  | [] => pat.isEmpty
  | c :: cs => headMatch pat (c :: cs) || occurs pat cs

/-- JS `s.includes(sub)`. -/
def includes (s sub : String) : Bool := occurs sub.data s.data

/-- JS `s.toLowerCase()` (ASCII range; other characters unchanged). -/
def toLower (s : String) : String := ⟨s.data.map Char.toLower⟩

/-- JS `s.trim()`: strip leading and trailing whitespace. -/
def jsTrim (s : String) : String :=
  ⟨((s.data.dropWhile Char.isWhitespace).reverse.dropWhile Char.isWhitespace).reverse⟩

/-- JS string `<=` (lexicographic by character code), used by string
comparison on ISO dates and by `Array.prototype.sort`. -/
def lexLe : List Char → List Char → Bool
  | [], _ => true
  | _ :: _, [] => false
  | a :: as, b :: bs =>
    if a.toNat < b.toNat then true
    else if b.toNat < a.toNat then false
    else lexLe as bs

/-- JS `a <= b` on strings. -/
def strLe (a b : String) : Bool := lexLe a.data b.data

/-! ### Intent classification (`detectLogCategory`, `detectMealType`) -/

/-- The log categories returned by `detectLogCategory` (`null` is `Option.none`). -/
inductive Category where
  | meal
  | exercise
  | meditation
  | journal
deriving DecidableEq

/-- `detectMealType`: first matching meal keyword group wins
(breakfast, lunch, dinner, snack); `null` when none matches. -/
def detectMealType (userText : String) : Option String :=
  let text := toLower userText
  if includes text "朝" || includes text "breakfast" then some "朝食"
  else if includes text "昼" || includes text "ランチ" || includes text "lunch" then some "昼食"
  else if includes text "夜" || includes text "夕" || includes text "dinner" then some "夕食"
  else if includes text "間食" || includes text "おやつ" || includes text "snack" then some "間食"
  else none

/-- `detectLogCategory`: meal (via `detectMealType` truthiness), then
exercise, meditation, journal keywords, else `null`. -/
def detectLogCategory (userText : String) : Option Category :=
  let text := toLower userText
  if (detectMealType userText).isSome then some Category.meal
  else if includes text "運動" || includes text "走" || includes text "筋トレ" ||
      includes text "workout" || includes text "run" then some Category.exercise
  else if includes text "瞑想" || includes text "meditation" || includes text "座禅" then
    some Category.meditation
  else if includes text "日記" || includes text "ジャーナル" || includes text "思った" ||
      includes text "感じた" then some Category.journal
  else none

/-- The flattened meal keyword table of `detectMealType`. -/
def mealKeywords : List String :=
  ["朝", "breakfast", "昼", "ランチ", "lunch", "夜", "夕", "dinner", "間食", "おやつ", "snack"]

/-- The exercise keyword table of `detectLogCategory`. -/
def exerciseKeywords : List String := ["運動", "走", "筋トレ", "workout", "run"]

/-- The meditation keyword table of `detectLogCategory`. -/
def meditationKeywords : List String := ["瞑想", "meditation", "座禅"]

/-- The journal keyword table of `detectLogCategory`. -/
def journalKeywords : List String := ["日記", "ジャーナル", "思った", "感じた"]

/-- Some keyword of the table occurs in the lowercased text. -/
def hasKeyword (ks : List String) (t : String) : Bool :=
  ks.any (fun k => includes (toLower t) k)

/-! ### The JS `Date` runtime and the date detectors -/

/-- Abstract model of the JavaScript `Date` runtime at the moment of the
request.  `epochDay` is the current date as days since 1970-01-01;
`monthFirstDay` is the date built by `new Date(getFullYear(), getMonth(), 1)`;
`nowTime` is `toTimeString().slice(0, 5)`; `toIso` renders an epoch day as
`toISOString().split("T")[0]`; `parseDay` is `new Date(string)` (`none`
for an invalid date, i.e. `NaN`). -/
structure JsRuntime where
  epochDay : Int
  monthFirstDay : Int
  nowTime : String
  toIso : Int → String
  parseDay : String → Option Int

/-- JS `Date.prototype.getDay` (0 = Sunday) of an epoch day:
1970-01-01 was a Thursday (`getDay = 4`). -/
def jsGetDay (d : Int) : Int := (d + 4) % 7

/-- `detectMealDate`: single-message date detection for meal logging. -/
def detectMealDate (rt : JsRuntime) (userText : String) : String :=
  let text := toLower userText
  if includes text "今日" || includes text "today" then rt.toIso rt.epochDay
  else if includes text "昨日" || includes text "yesterday" then rt.toIso (rt.epochDay - 1)
  else if includes text "一昨日" then rt.toIso (rt.epochDay - 2)
  else rt.toIso rt.epochDay

/-- `detectDateRange`: relative-phrase date ranges, with the `"ALL"`
sentinel pair for the entire-history phrases. -/
def detectDateRange (rt : JsRuntime) (userText : String) : Option (String × String) :=
  let today := rt.toIso rt.epochDay
  if includes userText "これまで" || includes userText "全期間" then some ("ALL", "ALL")
  else if includes userText "先週" then
    some (rt.toIso (rt.epochDay - 1 - 6), rt.toIso (rt.epochDay - 1))
  else if includes userText "今週" then
    let day := if jsGetDay rt.epochDay = 0 then 7 else jsGetDay rt.epochDay
    some (rt.toIso (rt.epochDay - (day - 1)), today)
  else if includes userText "今月" then
    some (rt.toIso rt.monthFirstDay, today)
  else none

/-! ### `callOpenAIWithRetry` -/

/-- Outcome of one underlying completion-API attempt: success with the
response, or a thrown error carrying the resolved HTTP status
(`e?.status || e?.response?.status`; `none` when no status is present). -/
inductive AttemptResult where
  | success (text : String)
  | failure (status : Option Nat)
deriving DecidableEq

/-- `isRetryable`: status 429 (`isRateOrQuota`) or `status >= 500`
(`undefined >= 500` is false in JS, hence `none ↦ false`). -/
def isRetryableStatus : Option Nat → Bool
  | some s => s == 429 || decide (500 ≤ s)
  | none => false

/-- The backoff delay before retry number `attempt + 1`:
`Math.min(500 * Math.pow(2, attempt), 2500)`. -/
def delayMs (attempt : Nat) : Nat := min (500 * 2 ^ attempt) 2500

/-- The retry loop of `callOpenAIWithRetry`: `f i` is the outcome of the
`i`-th attempt; `remaining = maxRetries - attempt` counts the loop
iterations still allowed (the loop exits once `attempt = maxRetries`).
Returns the propagated result (`Except.error` models `throw lastErr`)
together with the list of inter-attempt delays performed. -/
def retryAux (f : Nat → AttemptResult) (maxRetries : Nat) :
    Nat → Nat → Except (Option Nat) String × List Nat
  | attempt, 0 =>
    match f attempt with
    | AttemptResult.success t => (Except.ok t, [])
    | AttemptResult.failure st => (Except.error st, [])
  | attempt, remaining + 1 =>
    match f attempt with
    | AttemptResult.success t => (Except.ok t, [])
    | AttemptResult.failure st =>
      if isRetryableStatus st && attempt != maxRetries then
        let rest := retryAux f maxRetries (attempt + 1) remaining
        (rest.1, delayMs attempt :: rest.2)
      else (Except.error st, [])

/-- `callOpenAIWithRetry` with attempt outcomes `f`: starts at
`attempt = 0` with `maxRetries` retries allowed. -/
def callOpenAIWithRetry (f : Nat → AttemptResult) (maxRetries : Nat) :
    Except (Option Nat) String × List Nat :=
  retryAux f maxRetries 0 maxRetries

example : callOpenAIWithRetry
    (fun i => if i = 0 then AttemptResult.failure (some 429)
      else if i = 1 then AttemptResult.failure (some 503)
      else AttemptResult.success "ok") 2 = (Except.ok "ok", [500, 1000]) := rfl

example : callOpenAIWithRetry (fun _ => AttemptResult.failure (some 401)) 2 =
    (Except.error (some 401), []) := rfl

example : callOpenAIWithRetry (fun _ => AttemptResult.failure (some 500)) 2 =
    (Except.error (some 500), [500, 1000]) := rfl

/-! ### The store (`lib/sheets.ts`): rows of the `Meal Log` sheet -/

/-- A stored row: the positional string cells of one sheet row
(`row.get? i = none` models a cell absent from the returned row). -/
abbrev SheetRow : Type := List String

/-- `getMealLogsByRange` applied to the fetched rows: the `"ALL"`
sentinel pair returns every row, otherwise rows are filtered by
`row[2] >= start && row[2] <= end` (JS string comparison; a missing
cell compares false). -/
def getMealLogsByRange (rows : List SheetRow) (start stop : String) : List SheetRow :=
  if start = "ALL" ∧ stop = "ALL" then rows
  else rows.filter (fun r =>
    match r.get? 2 with
    | none => false
    | some c => strLe start c && strLe c stop)

/-- The `Meal Date` column (column C, index 2) of the fetched rows, with
empty values filtered out (`.map((r) => r[0]).filter(Boolean)` over the
`C2:C` fetch). -/
def mealDates (rows : List SheetRow) : List String :=
  (rows.map (fun r => (r.get? 2).getD "")).filter (fun s => s ≠ "")

/-- The default JS `Array.prototype.sort` order on strings, as a
decidable relation. -/
abbrev strLeProp (a b : String) : Prop := strLe a b = true

/-- `getMealLogDateRange`: `null` when no dates are stored, else the
first and last element of the (default, lexicographic) sort of the
date column. -/
def getMealLogDateRange (rows : List SheetRow) : Option (String × String) :=
  let dates := mealDates rows
  if dates.isEmpty then none
  else
    let sorted := dates.insertionSort strLeProp
    some (sorted.headD "", sorted.getLastD "")

/-! ### JS numbers and the summary aggregation -/

/-- A JS number: `some q` is a finite numeric value, `none` is `NaN`. -/
abbrev JsNum : Type := Option ℚ

/-- Value of an unsigned decimal digit string. -/
def digitsVal (cs : List Char) : Nat :=
  cs.foldl (fun a c => a * 10 + (c.toNat - '0'.toNat)) 0

/-- Parse the decimal-literal body accepted by JS `Number()`:
`digits`, `digits.digits`, `.digits` or `digits.`; anything else is `NaN`.
(The exponent and hex forms of `Number()` never occur in this data and
are not modelled.) -/
def parseDec (cs : List Char) : Option ℚ :=
  let intPart := cs.takeWhile Char.isDigit
  let rest := cs.dropWhile Char.isDigit
  match rest with
  | [] => if intPart.isEmpty then none else some (digitsVal intPart : ℚ)
  | '.' :: frac =>
    if frac.all Char.isDigit && !(intPart.isEmpty && frac.isEmpty) then
      some ((digitsVal intPart : ℚ) + (digitsVal frac : ℚ) / (10 ^ frac.length))
    else none
  | _ => none

/-- JS `Number(string)`: trims whitespace, `""` is `0`, optional sign,
then a decimal literal; otherwise `NaN`. -/
def jsNumber (s : String) : JsNum :=
  match (jsTrim s).data with
  | [] => some 0
  | '+' :: rest => parseDec rest
  | '-' :: rest => (parseDec rest).map Neg.neg
  | cs => parseDec cs

/-- `Number(row[i] || 0)`: a missing or empty (falsy) cell gives `0`,
otherwise the cell string is converted by `Number()`. -/
def cellNum (r : SheetRow) (i : Nat) : JsNum :=
  match r.get? i with
  | none => some 0
  | some s => if s = "" then some 0 else jsNumber s

/-- JS `+` with `NaN` propagation. -/
def jsAdd (a b : JsNum) : JsNum :=
  match a, b with
  | some x, some y => some (x + y)
  | _, _ => none

/-- JS `/` on the values this pipeline produces (`NaN` propagates;
a zero divisor gives an abnormal value). -/
def jsDiv (a b : JsNum) : JsNum :=
  match a, b with
  | some x, some y => if y = 0 then none else some (x / y)
  | _, _ => none

/-- The per-nutrient accumulation loop of the summary branch:
`totals.f += Number(row[i] || 0)` over all fetched log rows. -/
def colTotal (logs : List SheetRow) (i : Nat) : JsNum :=
  logs.foldl (fun acc r => jsAdd acc (cellNum r i)) (some 0)

/-- `toFixed(1)` modelled as exact decimal rounding to one place
(half rounds up; binary floating-point artifacts are not modelled). -/
def toFixed1 (a : JsNum) : JsNum :=
  a.map (fun q => (Rat.floor (10 * q + 1 / 2) : ℚ) / 10)

/-- `const days = (new Date(end).getTime() - new Date(start).getTime())
/ (1000*60*60*24) + 1`, `NaN` when either endpoint is an invalid date. -/
def daysOf (rt : JsRuntime) (start stop : String) : JsNum :=
  match rt.parseDay stop, rt.parseDay start with
  | some e, some s => some (((e - s : Int) : ℚ) + 1)
  | _, _ => none

/-- One rendered nutrient line of the summary: label, total and per-day
average (both after `toFixed(1)`), and unit. -/
structure SummaryLine where
  label : String
  total : JsNum
  avg : JsNum
  unit : String
deriving DecidableEq

/-- The summary reply content: the displayed date-range header and the
nine nutrient lines. -/
structure SummaryReport where
  startLabel : String
  endLabel : String
  lines : List SummaryLine
deriving DecidableEq

/-- The label, column index and unit of each of the nine nutrient lines,
in the order the summary prints them. -/
def nutrientSpecs : List (String × Nat × String) :=
  [("カロリー", 5, "kcal"), ("タンパク質", 6, "g"), ("脂質", 7, "g"),
   ("炭水化物", 8, "g"), ("ビタミンB6", 9, "mg"), ("ビタミンD", 10, "μg"),
   ("マグネシウム", 11, "mg"), ("鉄", 12, "mg"), ("亜鉛", 13, "mg")]

/-- Build the summary report: totals over the fetched rows, the
day-count divisor from the displayed start/end dates, and one line per
nutrient via the `fmt` helper. -/
def buildSummary (rt : JsRuntime) (logs : List SheetRow) (start stop : String) :
    SummaryReport :=
  let days := daysOf rt start stop
  { startLabel := start
    endLabel := stop
    lines := nutrientSpecs.map (fun spec =>
      { label := spec.1
        total := toFixed1 (colTotal logs spec.2.1)
        avg := toFixed1 (jsDiv (colTotal logs spec.2.1) days)
        unit := spec.2.2 }) }

/-! ### The event dispatcher (`POST` and its per-event branches) -/

/-- Content of one chat turn sent to the completion service: plain text,
or the interpolated summary text (modelled structurally). -/
inductive MsgContent where
  | text (s : String)
  | summaryText (r : SummaryReport)
deriving DecidableEq

/-- One role-tagged message of a completion call. -/
structure ChatMsg where
  role : String
  content : MsgContent
deriving DecidableEq

/-- The reply templates of the webhook, one constructor per `replyToLine`
call site (string interpolation modelled structurally). -/
inductive ReplyMsg where
  | noRecords
  | summary (report : SummaryReport) (feedback : String)
  | mealLogged (nutritionText : String)
  | exerciseLogged (userText : String)
  | meditationLogged (userText : String)
  | journalLogged (userText : String)
  | chat (text : String)
deriving DecidableEq

/-- An observable external side effect of event processing. -/
inductive Effect where
  | llmCall (msgs : List ChatMsg)
  | append (sheet : String) (row : SheetRow)
  | reply (replyToken : String) (msg : ReplyMsg)
deriving DecidableEq

/-- The per-request environment: the clock/date runtime, the store
content, whether each external call succeeds or throws, and the
completion service.  `llm msgs` is the outcome of
`callOpenAIWithRetry(msgs, …)`: the extracted
`choices?.[0]?.message?.content` on success (`none` models a null
content), or the status carried by the thrown error on failure. -/
structure Env where
  rt : JsRuntime
  storeRows : List SheetRow
  fetchRowsOk : Bool
  fetchDatesOk : Bool
  appendOk : Bool
  llm : List ChatMsg → Except (Option Nat) (Option String)

/-- Match `label[:：]\s*([\d.]+)` at the head of `l`; the captured
digit run on success. -/
def fieldAt (label : List Char) (l : List Char) : Option String :=
  if headMatch label l then
    match l.drop label.length with
    | c :: rest =>
      if c = ':' || c = '：' then
        let digits := (rest.dropWhile Char.isWhitespace).takeWhile
          (fun d => d.isDigit || d = '.')
        if digits.isEmpty then none else some ⟨digits⟩
      else none
    | [] => none
  else none

/-- First match of `label[:：]\s*([\d.]+)` anywhere in the text. -/
def fieldSearch (label : List Char) : List Char → Option String
  | [] => none
  | c :: cs =>
    match fieldAt label (c :: cs) with
    | some d => some d
    | none => fieldSearch label cs

/-- `nutritionText.match(/label[:：]\s*([\d.]+)/)?.[1] || ""`. -/
def extractField (label : String) (text : String) : String :=
  (fieldSearch label.data text.data).getD ""

/-- `value || 0` when appending an extracted field: the empty capture
becomes the number `0` (rendered as a `"0"` cell). -/
def orZero (s : String) : String := if s = "" then "0" else s

/-- The fixed system prompt of the nutrient-extraction call. -/
def nutritionSystemPrompt : String :=
  "あなたは管理栄養士です。ユーザーが食べた食事を入力したら、USDAのデータベースを参照し、以下の形式でおおよその栄養素を数値で出力してください。\n\nカロリー: xxx kcal\nタンパク質: xx g\n脂質: xx g\n炭水化物: xx g\nビタミンB6: xx mg\nビタミンD: xx μg\nマグネシウム: xx mg\n鉄: xx mg\n亜鉛: xx mg"

/-- The fixed system prompt of the summary-feedback call. -/
def feedbackSystemPrompt : String :=
  "あなたは管理栄養士です。以下の集計結果を参考に、栄養バランスについて短くフィードバックしてください。"

/-- The fixed system prompt of the chit-chat call. -/
def coachSystemPrompt : String :=
  "あなたは優しめの健康コーチです。栄養・運動・瞑想・ジャーナリングをサポートします。"

/-- The messages of the summary-feedback completion call. -/
def feedbackMsgs (report : SummaryReport) : List ChatMsg :=
  [⟨"system", MsgContent.text feedbackSystemPrompt⟩,
   ⟨"user", MsgContent.summaryText report⟩]

/-- The messages of the nutrient-extraction completion call. -/
def nutritionMsgs (userText : String) : List ChatMsg :=
  [⟨"system", MsgContent.text nutritionSystemPrompt⟩,
   ⟨"user", MsgContent.text userText⟩]

/-- The messages of the chit-chat completion call. -/
def chatMsgs (userText : String) : List ChatMsg :=
  [⟨"system", MsgContent.text coachSystemPrompt⟩,
   ⟨"user", MsgContent.text userText⟩]

/-- Tail of the summary branch after the row set and the displayed range
are fixed: empty row set replies "no records"; otherwise build the
report, request feedback (a failure there propagates to the per-event
handler) and reply with report plus feedback.  Returns the effect trace
and whether the branch threw. -/
def summarizeAndReply (env : Env) (replyToken : String) (logs : List SheetRow)
    (start stop : String) : List Effect × Bool :=
  if logs.isEmpty then ([Effect.reply replyToken ReplyMsg.noRecords], false)
  else
    let report := buildSummary env.rt logs start stop
    let msgs := feedbackMsgs report
    match env.llm msgs with
    | Except.error _ => ([Effect.llmCall msgs], true)
    | Except.ok fb =>
      ([Effect.llmCall msgs,
        Effect.reply replyToken (ReplyMsg.summary report (fb.getD ""))], false)

/-- The summary branch: fetch the rows (a failed fetch throws); for the
`"ALL"` sentinel substitute the stored min/max dates (when present) as
the displayed range while keeping the unrestricted row set; otherwise
filter by the concrete range. -/
def summaryBranch (env : Env) (replyToken start stop : String) : List Effect × Bool :=
  if env.fetchRowsOk then
    if start = "ALL" ∧ stop = "ALL" then
      let logs := getMealLogsByRange env.storeRows "ALL" "ALL"
      if env.fetchDatesOk then
        match getMealLogDateRange env.storeRows with
        | some p => summarizeAndReply env replyToken logs p.1 p.2
        | none => summarizeAndReply env replyToken logs start stop
      else ([], true)
    else summarizeAndReply env replyToken (getMealLogsByRange env.storeRows start stop)
      start stop
  else ([], true)

/-- The meal-log branch: detect the meal date, call the extractor, parse
the nine fields, append the 14-cell row, echo the extraction text. -/
def mealBranch (env : Env) (replyToken userText : String) : List Effect × Bool :=
  let mealDate := detectMealDate env.rt userText
  let msgs := nutritionMsgs userText
  match env.llm msgs with
  | Except.error _ => ([Effect.llmCall msgs], true)
  | Except.ok content =>
    let nutritionText := content.getD ""
    let row : SheetRow :=
      [env.rt.toIso env.rt.epochDay, env.rt.nowTime, mealDate,
       (detectMealType userText).getD "", userText,
       orZero (extractField "カロリー" nutritionText),
       orZero (extractField "タンパク質" nutritionText),
       orZero (extractField "脂質" nutritionText),
       orZero (extractField "炭水化物" nutritionText),
       orZero (extractField "ビタミンB6" nutritionText),
       orZero (extractField "ビタミンD" nutritionText),
       orZero (extractField "マグネシウム" nutritionText),
       orZero (extractField "鉄" nutritionText),
       orZero (extractField "亜鉛" nutritionText)]
    if env.appendOk then
      ([Effect.llmCall msgs, Effect.append "Meal Log" row,
        Effect.reply replyToken (ReplyMsg.mealLogged nutritionText)], false)
    else ([Effect.llmCall msgs], true)

/-- The exercise / meditation / journal branches: append
`[date, time, text]` to the sheet of that category and acknowledge. -/
def simpleBranch (env : Env) (replyToken sheet userText : String)
    (ack : ReplyMsg) : List Effect × Bool :=
  let row : SheetRow := [env.rt.toIso env.rt.epochDay, env.rt.nowTime, userText]
  if env.appendOk then
    ([Effect.append sheet row, Effect.reply replyToken ack], false)
  else ([], true)

/-- The chit-chat branch: its own try/catch replaces a completion
failure with the fixed apology, a null content with the fixed default,
and truncates the reply to 1000 characters. -/
def chatBranch (env : Env) (replyToken userText : String) : List Effect × Bool :=
  let msgs := chatMsgs userText
  match env.llm msgs with
  | Except.error _ =>
    ([Effect.llmCall msgs,
      Effect.reply replyToken (ReplyMsg.chat "内部エラーが発生しました。時間をおいて再試行してください。")], false)
  | Except.ok none =>
    ([Effect.llmCall msgs,
      Effect.reply replyToken (ReplyMsg.chat "すみません、もう一度お願いします。")], false)
  | Except.ok (some s) =>
    ([Effect.llmCall msgs,
      Effect.reply replyToken (ReplyMsg.chat ⟨s.data.take 1000⟩)], false)

/-- One inbound webhook event, as the handler reads it
(`event.type`, `event.message?.type`, `event.message.text`,
`event.replyToken`). -/
structure InEvent where
  type : String
  messageType : Option String
  text : Option String
  replyToken : String
deriving DecidableEq

/-- The body of the task of one event, up to but not including its
try/catch: the effect trace produced, and whether an exception escaped
to the per-event catch. -/
def handleEventCore (env : Env) (ev : InEvent) : List Effect × Bool :=
  if ev.type ≠ "message" ∨ ev.messageType ≠ some "text" then ([], false)
  else
    let userText := match ev.text with
      | none => ""
      | some t => jsTrim t
    if userText = "" then ([], false)
    else
      let category := detectLogCategory userText
      let range := detectDateRange env.rt userText
      match range, category with
      | some r, some Category.meal => summaryBranch env ev.replyToken r.1 r.2
      | _, _ =>
        match category with
        | some Category.meal => mealBranch env ev.replyToken userText
        | some Category.exercise =>
          simpleBranch env ev.replyToken "Exercise Log" userText
            (ReplyMsg.exerciseLogged userText)
        | some Category.meditation =>
          simpleBranch env ev.replyToken "Meditation Log" userText
            (ReplyMsg.meditationLogged userText)
        | some Category.journal =>
          simpleBranch env ev.replyToken "Journal Log" userText
            (ReplyMsg.journalLogged userText)
        | none => chatBranch env ev.replyToken userText

/-- The task of one event: the per-event try/catch logs and swallows any
exception, keeping the effects already performed. -/
def handleEvent (env : Env) (ev : InEvent) : List Effect :=
  (handleEventCore env ev).1

/-! ### The webhook boundary (`POST`) -/

/-- Result of `JSON.parse` plus the `Array.isArray(json.events)` check:
a parse exception, or an envelope whose `events` field is an array
(`some`) or anything else (`none`, treated as `[]`). -/
inductive ParsedBody where
  | malformed
  | envelope (events : Option (List InEvent))

/-- The webhook configuration and external collaborators:
the channel secret, the HMAC-SHA256-base64 digest primitive
(`crypto.createHmac("sha256", secret).update(body).digest("base64")`),
the JSON parser, and the per-event environment. -/
structure PostEnv where
  secret : String
  hmac : String → String → String
  parse : String → ParsedBody
  env : Env

/-- One inbound HTTP request: the `x-line-signature` header (if any)
and the raw body text. -/
structure WebhookRequest where
  signatureHeader : Option String
  body : String

/-- The three responses of the webhook route. -/
inductive WebhookResponse where
  | okJson
  | unauthorized
  | serverError
deriving DecidableEq

/-- The HTTP status code of each response. -/
def WebhookResponse.code : WebhookResponse → Nat
  | WebhookResponse.okJson => 200
  | WebhookResponse.unauthorized => 401
  | WebhookResponse.serverError => 500

/-- The `POST` handler: verify the signature (`401` on absent/empty or
mismatching signature, before any processing), parse the envelope
(`500` via the top-level catch when `JSON.parse` throws), run every
task per event and respond 200 with the ok body. -/
def webhookPost (p : PostEnv) (req : WebhookRequest) :
    WebhookResponse × List Effect :=
  let signature := req.signatureHeader.getD ""
  let digest := p.hmac p.secret req.body
  if signature = "" ∨ digest ≠ signature then (WebhookResponse.unauthorized, [])
  else
    match p.parse req.body with
    | ParsedBody.malformed => (WebhookResponse.serverError, [])
    | ParsedBody.envelope evs =>
      (WebhookResponse.okJson, ((evs.getD []).map (handleEvent p.env)).flatten)


/-! ### Concrete fixtures used to instantiate the theorems -/

/-- A concrete `Date` runtime: reference day 20000, ISO rendering
modelled by decimal day numbers. -/
def rtFix : JsRuntime :=
  { epochDay := 20000, monthFirstDay := 19993, nowTime := "12:00",
    toIso := fun d => toString d,
    parseDay := fun s =>
      if s = "19999" then some 19999 else if s = "20000" then some 20000 else none }

/-- A stored meal row dated day 19999. -/
def rowA : SheetRow :=
  ["20000", "09:00", "19999", "朝食", "egg", "500", "30", "20", "50",
   "1", "2", "3", "4", "5"]

/-- A stored meal row dated day 20000. -/
def rowB : SheetRow :=
  ["20000", "12:00", "20000", "昼食", "salad", "700", "10", "10", "80",
   "1", "2", "3", "4", "5"]

/-- A concrete per-event environment with two stored rows and a
completion service that always answers `"fb"`. -/
def envFix : Env :=
  { rt := rtFix, storeRows := [rowA, rowB], fetchRowsOk := true,
    fetchDatesOk := true, appendOk := true,
    llm := fun _ => Except.ok (some "fb") }

/-- A concrete per-event environment with an empty store. -/
def envQuiet : Env :=
  { rt := rtFix, storeRows := [], fetchRowsOk := true, fetchDatesOk := true,
    appendOk := true, llm := fun _ => Except.ok none }

/-- A non-text inbound event. -/
def evFix : InEvent :=
  { type := "join", messageType := none, text := none, replyToken := "r" }

/-- A concrete webhook configuration whose digest primitive always
answers `"SIG"` and whose parser yields one non-text event. -/
def pFix : PostEnv :=
  { secret := "secret", hmac := fun _ _ => "SIG",
    parse := fun _ => ParsedBody.envelope (some [evFix]), env := envQuiet }

/-- A request presenting the matching signature. -/
def reqGood : WebhookRequest := { signatureHeader := some "SIG", body := "payload" }

/-- A request presenting no signature header. -/
def reqBad : WebhookRequest := { signatureHeader := none, body := "payload" }

/-! ## Theorems -/

theorem detectMealType_isSome (t : String) :
    (detectMealType t).isSome = hasKeyword mealKeywords t := by
  simp only [detectMealType, hasKeyword, mealKeywords, List.any_cons, List.any_nil,
    Bool.or_false]
  split_ifs with h1 h2 h3 h4 <;> simp_all <;> tauto

theorem detectLogCategory_eq (t : String) :
    detectLogCategory t =
      (if hasKeyword mealKeywords t then some Category.meal
       else if hasKeyword exerciseKeywords t then some Category.exercise
       else if hasKeyword meditationKeywords t then some Category.meditation
       else if hasKeyword journalKeywords t then some Category.journal
       else none) := by
  have hm := detectMealType_isSome t
  simp only [detectLogCategory, hasKeyword, mealKeywords, exerciseKeywords,
    meditationKeywords, journalKeywords, List.any_cons, List.any_nil, Bool.or_false] at *
  rw [hm]
  simp only [Bool.or_assoc]

/-- C9: every input text gets exactly one category, assigned by the fixed
precedence meal → exercise → meditation → journal → none over the keyword
tables; in particular a text with both a meal and an exercise keyword is
classified as meal. -/
theorem detectLogCategory_precedence_spec (t : String) :
    (detectLogCategory t = some Category.meal ↔ hasKeyword mealKeywords t = true)
    ∧ (hasKeyword mealKeywords t = false → hasKeyword exerciseKeywords t = true →
        detectLogCategory t = some Category.exercise)
    ∧ (hasKeyword mealKeywords t = false → hasKeyword exerciseKeywords t = false →
        hasKeyword meditationKeywords t = true →
        detectLogCategory t = some Category.meditation)
    ∧ (hasKeyword mealKeywords t = false → hasKeyword exerciseKeywords t = false →
        hasKeyword meditationKeywords t = false → hasKeyword journalKeywords t = true →
        detectLogCategory t = some Category.journal)
    ∧ (hasKeyword mealKeywords t = false → hasKeyword exerciseKeywords t = false →
        hasKeyword meditationKeywords t = false → hasKeyword journalKeywords t = false →
        detectLogCategory t = none)
    ∧ (hasKeyword mealKeywords t = true → hasKeyword exerciseKeywords t = true →
        detectLogCategory t = some Category.meal) := by
  rw [detectLogCategory_eq]
  rcases h1 : hasKeyword mealKeywords t <;>
    rcases h2 : hasKeyword exerciseKeywords t <;>
      rcases h3 : hasKeyword meditationKeywords t <;>
        rcases h4 : hasKeyword journalKeywords t <;> simp

/-- Witness for C9 at the example given in the spec: a text with both a lunch
keyword and a running keyword is classified as meal. -/
theorem detectLogCategory_precedence_witness :
    hasKeyword mealKeywords "ランチの後に30分走った" = true
    ∧ hasKeyword exerciseKeywords "ランチの後に30分走った" = true
    ∧ detectLogCategory "ランチの後に30分走った" = some Category.meal :=
  ⟨by decide, by decide,
    (detectLogCategory_precedence_spec "ランチの後に30分走った").2.2.2.2.2 (by decide) (by decide)⟩

/-- C8 counterexample: no message is ever classified as meal while its
meal-type sub-classification is unknown (`null`), because meal
classification itself requires `detectMealType` to match. -/
theorem meal_with_unknown_mealType_counterexample :
    ¬ ∃ t, detectLogCategory t = some Category.meal ∧ detectMealType t = none := by
  rintro ⟨t, hcat, hmt⟩
  have hs := detectMealType_isSome t
  rw [hmt] at hs
  rw [detectLogCategory_eq, ← hs] at hcat
  simp only [Option.isSome_none, Bool.false_eq_true, if_false] at hcat
  split_ifs at hcat <;> simp_all

/-- C8 (amended): `detectMealType` returns unknown (`null`) exactly when
no meal-name keyword matches, but such a message is never categorized as
meal — a message is meal-categorized iff a meal keyword matches, so every
meal-categorized message has a known meal type. -/
theorem mealType_unknown_never_meal_spec (t : String) :
    (detectMealType t = none ↔ hasKeyword mealKeywords t = false)
    ∧ (detectLogCategory t = some Category.meal ↔ (detectMealType t).isSome = true)
    ∧ (detectLogCategory t = some Category.meal → detectMealType t ≠ none) := by
  have hs := detectMealType_isSome t
  have hiff : detectMealType t = none ↔ hasKeyword mealKeywords t = false := by
    rw [← hs]
    cases detectMealType t <;> simp
  refine ⟨hiff, ?_, ?_⟩
  · rw [detectLogCategory_eq, hs]
    rcases h1 : hasKeyword mealKeywords t <;>
      rcases h2 : hasKeyword exerciseKeywords t <;>
        rcases h3 : hasKeyword meditationKeywords t <;>
          rcases h4 : hasKeyword journalKeywords t <;> simp_all
  · intro hcat hnone
    rw [detectLogCategory_eq, ← hs, hnone] at hcat
    simp only [Option.isSome_none, Bool.false_eq_true, if_false] at hcat
    split_ifs at hcat <;> simp_all

/-- Witness for C8: a free-text meal description with no meal-name
keyword has unknown meal type and is not categorized as meal. -/
theorem mealType_unknown_never_meal_witness :
    hasKeyword mealKeywords "カレーを食べた" = false
    ∧ detectMealType "カレーを食べた" = none
    ∧ detectLogCategory "カレーを食べた" ≠ some Category.meal :=
  ⟨by decide, (mealType_unknown_never_meal_spec "カレーを食べた").1.mpr (by decide),
    fun h => by
      have := (mealType_unknown_never_meal_spec "カレーを食べた").2.2 h
      exact this ((mealType_unknown_never_meal_spec "カレーを食べた").1.mpr (by decide))⟩

/-- C10: an inbound text-message event whose text trims to the empty
string is ignored silently: no reply, no append, no completion call, and
no exception. -/
theorem empty_text_silently_ignored_spec (env : Env) (ev : InEvent) (t : String)
    (hty : ev.type = "message") (hmt : ev.messageType = some "text")
    (htx : ev.text = some t) (htrim : jsTrim t = "") :
    handleEventCore env ev = ([], false) ∧ handleEvent env ev = [] := by
  have h : handleEventCore env ev = ([], false) := by
    simp [handleEventCore, hty, hmt, htx, htrim]
  exact ⟨h, by simp [handleEvent, h]⟩

/-- Witness for C10: a whitespace-only message produces no effects. -/
theorem empty_text_silently_ignored_witness :
    handleEventCore
      { rt := { epochDay := 0, monthFirstDay := 0, nowTime := "00:00",
                toIso := fun d => toString d, parseDay := fun _ => none },
        storeRows := [], fetchRowsOk := true, fetchDatesOk := true, appendOk := true,
        llm := fun _ => Except.ok none }
      { type := "message", messageType := some "text", text := some "   ",
        replyToken := "tok" } = ([], false) :=
  (empty_text_silently_ignored_spec _ _ "   " rfl rfl rfl (by decide)).1

/-- C7 (code evaluated at the failing input): a message containing the
day-before-yesterday phrase 一昨日 is dated today − 1, because the
earlier 昨日 check already matches (一昨日 contains 昨日 as a substring),
leaving the 一昨日 branch dead. -/
theorem detectMealDate_dayBeforeYesterday_bug (rt : JsRuntime) :
    detectMealDate rt "一昨日の夕食はカレー" = rt.toIso (rt.epochDay - 1)
    ∧ includes (toLower "一昨日の夕食はカレー") "昨日" = true
    ∧ includes (toLower "一昨日の夕食はカレー") "一昨日" = true := by
  refine ⟨?_, by decide, by decide⟩
  have h1 : (includes (toLower "一昨日の夕食はカレー") "今日" ||
      includes (toLower "一昨日の夕食はカレー") "today") = false := by decide
  have h2 : (includes (toLower "一昨日の夕食はカレー") "昨日" ||
      includes (toLower "一昨日の夕食はカレー") "yesterday") = true := by decide
  simp only [detectMealDate, h1, h2, Bool.false_eq_true, if_false, if_true]

/-- C6: the date-range resolver, in fixed precedence: entire-history
phrase → the ALL/ALL sentinel; 先週 → the 7-day window from today − 7 to
today − 1; 今週 → a Monday (ISO weekday, Sunday treated as 7) at most 6
days back through today; 今月 → the first-of-month of the runtime through
today; otherwise null. -/
theorem detectDateRange_spec (rt : JsRuntime) (t : String) :
    ((includes t "これまで" || includes t "全期間") = true →
      detectDateRange rt t = some ("ALL", "ALL"))
    ∧ ((includes t "これまで" || includes t "全期間") = false →
      includes t "先週" = true →
      detectDateRange rt t =
        some (rt.toIso (rt.epochDay - 7), rt.toIso (rt.epochDay - 1)))
    ∧ ((includes t "これまで" || includes t "全期間") = false →
      includes t "先週" = false → includes t "今週" = true →
      ∃ s : Int, detectDateRange rt t = some (rt.toIso s, rt.toIso rt.epochDay)
        ∧ jsGetDay s = 1 ∧ rt.epochDay - 6 ≤ s ∧ s ≤ rt.epochDay)
    ∧ ((includes t "これまで" || includes t "全期間") = false →
      includes t "先週" = false → includes t "今週" = false → includes t "今月" = true →
      detectDateRange rt t = some (rt.toIso rt.monthFirstDay, rt.toIso rt.epochDay))
    ∧ ((includes t "これまで" || includes t "全期間") = false →
      includes t "先週" = false → includes t "今週" = false → includes t "今月" = false →
      detectDateRange rt t = none) := by
  refine ⟨?_, ?_, ?_, ?_, ?_⟩
  · intro h1
    simp [detectDateRange, h1]
  · intro h1 h2
    have e : rt.epochDay - 1 - 6 = rt.epochDay - 7 := by ring
    simp only [detectDateRange, h1, h2, Bool.false_eq_true, if_false, if_true, e]
  · intro h1 h2 h3
    simp only [detectDateRange, h1, h2, h3, Bool.false_eq_true, if_false, if_true]
    refine ⟨rt.epochDay -
      ((if jsGetDay rt.epochDay = 0 then 7 else jsGetDay rt.epochDay) - 1), rfl, ?_, ?_, ?_⟩ <;>
      by_cases h : jsGetDay rt.epochDay = 0 <;>
        simp only [h, if_true, if_false] <;> simp only [jsGetDay] at * <;> omega
  · intro h1 h2 h3 h4
    simp only [detectDateRange, h1, h2, h3, h4, Bool.false_eq_true, if_false, if_true]
  · intro h1 h2 h3 h4
    simp only [detectDateRange, h1, h2, h3, h4, Bool.false_eq_true, if_false]

/-- Witness for C6 at the example phrases of the spec, on a concrete runtime
(reference day 20000). -/
theorem detectDateRange_spec_witness :
    detectDateRange
      { epochDay := 20000, monthFirstDay := 19993, nowTime := "00:00",
        toIso := fun d => toString d, parseDay := fun _ => none }
      "先週のサマリーをください" = some ("19993", "19999")
    ∧ detectDateRange
      { epochDay := 20000, monthFirstDay := 19993, nowTime := "00:00",
        toIso := fun d => toString d, parseDay := fun _ => none }
      "これまでの記録" = some ("ALL", "ALL") := by
  constructor
  · have h := (detectDateRange_spec
      { epochDay := 20000, monthFirstDay := 19993, nowTime := "00:00",
        toIso := fun d => toString d, parseDay := fun _ => none }
      "先週のサマリーをください").2.1 (by decide) (by decide)
    simpa using h
  · exact (detectDateRange_spec
      { epochDay := 20000, monthFirstDay := 19993, nowTime := "00:00",
        toIso := fun d => toString d, parseDay := fun _ => none }
      "これまでの記録").1 (by decide)

theorem retryAux_ok (f : Nat → AttemptResult) (n : Nat) :
    ∀ (k a r : Nat), a + r = n → k ≤ r →
      (∀ i, i < k → ∃ s, f (a + i) = AttemptResult.failure s ∧ isRetryableStatus s = true) →
      ∀ t, f (a + k) = AttemptResult.success t →
      retryAux f n a r = (Except.ok t, (List.range' a k).map delayMs) := by
  intro k
  induction k with
  | zero =>
    intro a r _ _ _ t hsucc
    rw [Nat.add_zero] at hsucc
    rcases r with _ | r <;> simp [retryAux, hsucc]
  | succ k ih =>
    intro a r har hk hfail t hsucc
    rcases r with _ | r
    · omega
    · obtain ⟨s, hfs, hrs⟩ := hfail 0 (Nat.succ_pos k)
      rw [Nat.add_zero] at hfs
      have han : (a != n) = true := by simp; omega
      have hrest := ih (a + 1) r (by omega) (by omega)
        (fun i hi => by
          have h := hfail (i + 1) (by omega)
          rwa [show a + (i + 1) = a + 1 + i by omega] at h)
        t (by rwa [show a + 1 + k = a + (k + 1) by omega])
      simp only [retryAux, hfs, hrs, han, Bool.and_self, if_true, hrest,
        List.range'_succ, List.map_cons]

theorem retryAux_exhaust (f : Nat → AttemptResult) (n : Nat) :
    ∀ (r a : Nat), a + r = n →
      (∀ i, i ≤ r → ∃ s, f (a + i) = AttemptResult.failure s ∧ isRetryableStatus s = true) →
      ∃ s, f n = AttemptResult.failure s ∧
        retryAux f n a r = (Except.error s, (List.range' a r).map delayMs) := by
  intro r
  induction r with
  | zero =>
    intro a har hfail
    obtain ⟨s, hfs, _⟩ := hfail 0 (Nat.le_refl 0)
    rw [Nat.add_zero] at hfs
    subst har
    rw [Nat.add_zero]
    exact ⟨s, hfs, by simp [retryAux, hfs]⟩
  | succ r ih =>
    intro a har hfail
    obtain ⟨s, hfs, hrs⟩ := hfail 0 (Nat.zero_le _)
    rw [Nat.add_zero] at hfs
    obtain ⟨s2, hfs2, hrest⟩ := ih (a + 1) (by omega)
      (fun i hi => by
        have h := hfail (i + 1) (by omega)
        rwa [show a + (i + 1) = a + 1 + i by omega] at h)
    have han : (a != n) = true := by simp; omega
    refine ⟨s2, hfs2, ?_⟩
    simp only [retryAux, hfs, hrs, han, Bool.and_self, if_true, hrest,
      List.range'_succ, List.map_cons]

/-- C1: the completion-call wrapper classifies a failure as retryable
exactly when its status is 429 or a server-error status (≥ 500, the
"5xx-class"); a run of retryable failures is retried with the capped
exponential delays `delayMs 0, delayMs 1, …` until a success, a fatal
failure (propagated immediately with zero delays), or exhaustion after
`maxRetries` retries (propagating the last error after `maxRetries`
delays). -/
theorem callOpenAIWithRetry_spec :
    (∀ st, isRetryableStatus st = true ↔ ∃ s, st = some s ∧ (s = 429 ∨ 500 ≤ s))
    ∧ (∀ (f : Nat → AttemptResult) (n k : Nat) (t : String), k ≤ n →
        (∀ i, i < k → ∃ s, f i = AttemptResult.failure s ∧ isRetryableStatus s = true) →
        f k = AttemptResult.success t →
        callOpenAIWithRetry f n = (Except.ok t, (List.range k).map delayMs))
    ∧ (∀ (f : Nat → AttemptResult) (n : Nat) (st : Option Nat),
        f 0 = AttemptResult.failure st → isRetryableStatus st = false →
        callOpenAIWithRetry f n = (Except.error st, []))
    ∧ (∀ (f : Nat → AttemptResult) (n : Nat),
        (∀ i, i ≤ n → ∃ s, f i = AttemptResult.failure s ∧ isRetryableStatus s = true) →
        ∃ s, f n = AttemptResult.failure s ∧
          callOpenAIWithRetry f n = (Except.error s, (List.range n).map delayMs))
    ∧ (∀ a, delayMs a = min (500 * 2 ^ a) 2500) := by
  refine ⟨?_, ?_, ?_, ?_, fun _ => rfl⟩
  · intro st
    cases st with
    | none => simp [isRetryableStatus]
    | some s => simp [isRetryableStatus]
  · intro f n k t hk hfail hsucc
    rw [List.range_eq_range']
    exact retryAux_ok f n k 0 n (Nat.zero_add n) hk
      (fun i hi => by simpa using hfail i hi) t (by simpa using hsucc)
  · intro f n st hf hr
    rcases n with _ | n <;> simp [callOpenAIWithRetry, retryAux, hf, hr]
  · intro f n hfail
    rw [List.range_eq_range']
    exact retryAux_exhaust f n n 0 (Nat.zero_add n)
      (fun i hi => by simpa using hfail i hi)

/-- Witness for C1 at the example given in the spec: two rate-limit failures
then a success, with `maxRetries = 2`, returns the success after exactly
the two delays 500 ms and 1000 ms. -/
theorem callOpenAIWithRetry_spec_witness :
    callOpenAIWithRetry
      (fun i => if i = 0 then AttemptResult.failure (some 429)
        else if i = 1 then AttemptResult.failure (some 503)
        else AttemptResult.success "ok") 2 = (Except.ok "ok", [500, 1000]) := by
  have h := callOpenAIWithRetry_spec.2.1
    (fun i => if i = 0 then AttemptResult.failure (some 429)
      else if i = 1 then AttemptResult.failure (some 503)
      else AttemptResult.success "ok") 2 2 "ok" (Nat.le_refl 2)
    (fun i hi => by
      interval_cases i
      · exact ⟨some 429, rfl, by decide⟩
      · exact ⟨some 503, rfl, by decide⟩)
    rfl
  have e : (List.range 2).map delayMs = [500, 1000] := by decide
  rw [e] at h
  exact h

/-- C2: once the signature is accepted and the envelope parses, the
task of each event runs with its own catch (errors only logged, effects
kept), siblings are unaffected, and the webhook answers 200 with the
ok body regardless of per-event failures; a 500 answer occurs exactly
on the malformed envelope (top-level catch). -/
theorem webhook_event_isolation_spec (p : PostEnv) (req : WebhookRequest)
    (sig : String) (hsig : req.signatureHeader = some sig) (hne : sig ≠ "")
    (hdig : p.hmac p.secret req.body = sig) :
    (∀ events, p.parse req.body = ParsedBody.envelope (some events) →
      webhookPost p req =
        (WebhookResponse.okJson,
          (events.map (fun e => (handleEventCore p.env e).1)).flatten))
    ∧ (p.parse req.body = ParsedBody.malformed →
        webhookPost p req = (WebhookResponse.serverError, []))
    ∧ (∀ ev, handleEvent p.env ev = (handleEventCore p.env ev).1)
    ∧ WebhookResponse.okJson.code = 200 ∧ WebhookResponse.serverError.code = 500 := by
  have hcond : ¬(req.signatureHeader.getD "" = "" ∨
      ¬p.hmac p.secret req.body = req.signatureHeader.getD "") := by
    rw [hsig, not_or, not_not]
    exact ⟨by simpa using hne, by simpa using hdig⟩
  refine ⟨?_, ?_, fun ev => rfl, rfl, rfl⟩
  · intro events hparse
    simp only [webhookPost]
    rw [if_neg hcond, hparse]
    rfl
  · intro hparse
    simp only [webhookPost]
    rw [if_neg hcond, hparse]

/-- Witness for C2: a correctly signed request whose envelope holds one
(non-text) event is answered 200 with the ok body. -/
theorem webhook_event_isolation_witness :
    webhookPost pFix reqGood = (WebhookResponse.okJson, []) := by
  have h := (webhook_event_isolation_spec pFix reqGood "SIG" rfl (by decide) rfl).1
    [evFix] rfl
  have e : (([evFix].map (fun e => (handleEventCore pFix.env e).1)).flatten
      : List Effect) = [] := rfl
  rw [e] at h
  exact h

/-- C3: the webhook accepts a request exactly when the presented
signature header equals the digest `base64(HMAC-SHA256(body, secret))`
(which is never the empty string); on mismatch — including an absent or
empty header — it answers `401` with no event processing at all. -/
theorem signature_check_spec (p : PostEnv) (req : WebhookRequest)
    (hd : p.hmac p.secret req.body ≠ "") :
    ((webhookPost p req).1 = WebhookResponse.unauthorized ↔
      req.signatureHeader.getD "" ≠ p.hmac p.secret req.body)
    ∧ (req.signatureHeader.getD "" ≠ p.hmac p.secret req.body →
        webhookPost p req = (WebhookResponse.unauthorized, []))
    ∧ WebhookResponse.unauthorized.code = 401 := by
  by_cases h2 : p.hmac p.secret req.body = req.signatureHeader.getD ""
  · have hne : ¬(req.signatureHeader.getD "" = "" ∨
        ¬p.hmac p.secret req.body = req.signatureHeader.getD "") := by
      rw [not_or, not_not]
      exact ⟨fun he => hd (h2.trans he), h2⟩
    have hres : webhookPost p req =
        (match p.parse req.body with
         | ParsedBody.malformed => (WebhookResponse.serverError, [])
         | ParsedBody.envelope evs =>
           (WebhookResponse.okJson, ((evs.getD []).map (handleEvent p.env)).flatten)) := by
      simp only [webhookPost]
      rw [if_neg hne]
    refine ⟨?_, fun habs => (habs h2.symm).elim, rfl⟩
    rw [hres]
    cases hp : p.parse req.body <;> simp [h2]
  · have hcond : req.signatureHeader.getD "" = "" ∨
        ¬p.hmac p.secret req.body = req.signatureHeader.getD "" := Or.inr h2
    have hres : webhookPost p req = (WebhookResponse.unauthorized, []) := by
      simp only [webhookPost]
      rw [if_pos hcond]
    exact ⟨⟨fun _ he => h2 he.symm, fun _ => by rw [hres]⟩, fun _ => hres, rfl⟩

/-- Witness for C3: an absent signature header is rejected with `401`
and an empty effect trace. -/
theorem signature_check_witness :
    webhookPost pFix reqBad = (WebhookResponse.unauthorized, []) :=
  (signature_check_spec pFix reqBad (by decide)).2.1 (by decide)

theorem lexLe_refl : ∀ cs, lexLe cs cs = true
  | [] => rfl
  | a :: as => by simp [lexLe, lexLe_refl as]

theorem lexLe_trans : ∀ as bs cs, lexLe as bs = true → lexLe bs cs = true →
    lexLe as cs = true
  | [], _, _, _, _ => rfl
  | a :: as, [], cs, h, _ => by simp [lexLe] at h
  | a :: as, b :: bs, [], _, h => by simp [lexLe] at h
  | a :: as, b :: bs, c :: cs, h1, h2 => by
    simp only [lexLe] at h1 h2 ⊢
    by_cases hab : a.toNat < b.toNat <;> by_cases hba : b.toNat < a.toNat <;>
      by_cases hbc : b.toNat < c.toNat <;> by_cases hcb : c.toNat < b.toNat <;>
        by_cases hac : a.toNat < c.toNat <;> by_cases hca : c.toNat < a.toNat <;>
          simp_all <;>
        first
          | omega
          | exact Or.inr (lexLe_trans as bs cs h1 h2)

theorem lexLe_total : ∀ as bs, lexLe as bs = true ∨ lexLe bs as = true
  | [], _ => Or.inl rfl
  | _ :: _, [] => Or.inr rfl
  | a :: as, b :: bs => by
    simp only [lexLe]
    rcases Nat.lt_trichotomy a.toNat b.toNat with h | h | h
    · left
      simp [h]
    · rcases lexLe_total as bs with ih | ih
      · left
        simp [h, ih]
      · right
        simp [h, ih]
    · right
      simp [h]

theorem pairwise_headD_rel {r : String → String → Prop} :
    ∀ (l : List String), l.Pairwise r → (∀ a ∈ l, r a a) →
      ∀ d ∈ l, r (l.headD "") d
  | [], _, _, d, hd => absurd hd (List.not_mem_nil d)
  | a :: as, hp, hrefl, d, hd => by
    rcases List.mem_cons.mp hd with rfl | hd2
    · exact hrefl _ (List.mem_cons_self _ _)
    · exact (List.pairwise_cons.mp hp).1 d hd2

theorem getMealLogDateRange_minMax (rows : List SheetRow) (mn mx : String)
    (h : getMealLogDateRange rows = some (mn, mx)) :
    mn ∈ mealDates rows ∧ mx ∈ mealDates rows ∧
      ∀ d ∈ mealDates rows, strLe mn d = true ∧ strLe d mx = true := by
  haveI htot : IsTotal String strLeProp := ⟨fun a b => lexLe_total a.data b.data⟩
  haveI htrans : IsTrans String strLeProp :=
    ⟨fun a b c => lexLe_trans a.data b.data c.data⟩
  simp only [getMealLogDateRange] at h
  by_cases hne : (mealDates rows).isEmpty
  · rw [if_pos hne] at h
    cases h
  · rw [if_neg hne] at h
    have hpair := Option.some.injEq _ _ ▸ h
    have hmn : (List.insertionSort strLeProp (mealDates rows)).headD "" = mn := by
      have := Option.some.inj h
      exact (Prod.mk.injEq _ _ _ _ ▸ this).1
    have hmx : (List.insertionSort strLeProp (mealDates rows)).getLastD "" = mx := by
      have := Option.some.inj h
      exact (Prod.mk.injEq _ _ _ _ ▸ this).2
    set sorted := List.insertionSort strLeProp (mealDates rows) with hsorted
    have hperm : sorted.Perm (mealDates rows) := List.perm_insertionSort _ _
    have hsort : sorted.Sorted strLeProp := List.sorted_insertionSort _ _
    have hsne : sorted ≠ [] := by
      intro h0
      rw [h0] at hperm
      rw [List.isEmpty_iff] at hne
      exact hne (hperm.nil_eq.symm ▸ rfl)
    have hmem : ∀ x ∈ sorted, x ∈ mealDates rows := fun x hx => hperm.mem_iff.mp hx
    have hmem2 : ∀ x ∈ mealDates rows, x ∈ sorted := fun x hx => hperm.mem_iff.mpr hx
    have hmnmem : mn ∈ sorted := by
      rw [← hmn]
      rcases sorted with _ | ⟨a, as⟩
      · exact absurd rfl hsne
      · exact List.mem_cons_self a as
    have hmxmem : mx ∈ sorted := by
      rw [← hmx, List.getLastD_eq_getLast?, List.getLast?_eq_getLast_of_ne_nil hsne]
      exact List.getLast_mem hsne
    refine ⟨hmem mn hmnmem, hmem mx hmxmem, fun d hd => ⟨?_, ?_⟩⟩
    · have := pairwise_headD_rel sorted hsort
        (fun a _ => lexLe_refl a.data) d (hmem2 d hd)
      rwa [hmn] at this
    · have hrev : sorted.reverse.Pairwise (fun a b => strLeProp b a) :=
        List.pairwise_reverse.mpr hsort
      have := pairwise_headD_rel sorted.reverse hrev
        (fun a _ => lexLe_refl a.data) d (List.mem_reverse.mpr (hmem2 d hd))
      rwa [List.headD_eq_head?, List.head?_reverse, ← List.getLastD_eq_getLast?, hmx] at this

/-- C4: for an ALL-sentinel summary, the totals (and the report lines)
are computed over the unrestricted full row set returned by the store,
while the displayed start/end dates — and the day-count divisor fed into
the per-day averages — come from the actual minimum and maximum
stored meal dates. -/
theorem summaryAllSentinel_spec (env : Env) (tok mn mx : String) (fb : Option String)
    (h1 : env.fetchRowsOk = true) (h2 : env.fetchDatesOk = true)
    (h3 : getMealLogDateRange env.storeRows = some (mn, mx))
    (h5 : env.llm (feedbackMsgs (buildSummary env.rt env.storeRows mn mx)) =
      Except.ok fb) :
    (summaryBranch env tok "ALL" "ALL" =
      ([Effect.llmCall (feedbackMsgs (buildSummary env.rt env.storeRows mn mx)),
        Effect.reply tok
          (ReplyMsg.summary (buildSummary env.rt env.storeRows mn mx) (fb.getD ""))],
        false))
    ∧ getMealLogsByRange env.storeRows "ALL" "ALL" = env.storeRows
    ∧ (buildSummary env.rt env.storeRows mn mx).startLabel = mn
    ∧ (buildSummary env.rt env.storeRows mn mx).endLabel = mx
    ∧ (buildSummary env.rt env.storeRows mn mx).lines =
        nutrientSpecs.map (fun spec =>
          { label := spec.1
            total := toFixed1 (colTotal env.storeRows spec.2.1)
            avg := toFixed1 (jsDiv (colTotal env.storeRows spec.2.1)
              (daysOf env.rt mn mx))
            unit := spec.2.2 })
    ∧ mn ∈ mealDates env.storeRows ∧ mx ∈ mealDates env.storeRows
    ∧ (∀ d ∈ mealDates env.storeRows, strLe mn d = true ∧ strLe d mx = true) := by
  obtain ⟨hmn, hmx, hminmax⟩ := getMealLogDateRange_minMax env.storeRows mn mx h3
  have hAll : getMealLogsByRange env.storeRows "ALL" "ALL" = env.storeRows := by
    simp [getMealLogsByRange]
  have hrows : env.storeRows.isEmpty = false := by
    rcases he : env.storeRows with _ | ⟨r, rest⟩
    · rw [he] at hmn
      simp [mealDates] at hmn
    · rfl
  have hbranch : summaryBranch env tok "ALL" "ALL" =
      ([Effect.llmCall (feedbackMsgs (buildSummary env.rt env.storeRows mn mx)),
        Effect.reply tok
          (ReplyMsg.summary (buildSummary env.rt env.storeRows mn mx) (fb.getD ""))],
        false) := by
    simp only [summaryBranch, h1, if_true]
    rw [if_pos ⟨trivial, trivial⟩, hAll]
    simp only [h2, if_true]
    rw [h3]
    simp only [summarizeAndReply, hrows, Bool.false_eq_true, if_false, h5]
  exact ⟨hbranch, hAll, rfl, rfl, rfl, hmn, hmx, hminmax⟩

/-- Witness for C4: on a two-row store dated days 19999 and 20000, the
ALL-sentinel summary uses the full row set for totals and labels the
range with the stored min/max. -/
theorem summaryAllSentinel_witness :
    summaryBranch envFix "t" "ALL" "ALL" =
      ([Effect.llmCall (feedbackMsgs (buildSummary envFix.rt envFix.storeRows
          "19999" "20000")),
        Effect.reply "t"
          (ReplyMsg.summary (buildSummary envFix.rt envFix.storeRows "19999" "20000")
            "fb")], false)
    ∧ getMealLogsByRange envFix.storeRows "ALL" "ALL" = envFix.storeRows :=
  ⟨(summaryAllSentinel_spec envFix "t" "19999" "20000" (some "fb")
      rfl rfl (by decide) rfl).1,
    (summaryAllSentinel_spec envFix "t" "19999" "20000" (some "fb")
      rfl rfl (by decide) rfl).2.1⟩

theorem foldl_jsAdd_some (i : Nat) :
    ∀ (logs : List SheetRow) (q : ℚ), (∀ r ∈ logs, (cellNum r i).isSome) →
      logs.foldl (fun acc r => jsAdd acc (cellNum r i)) (some q) =
        some (q + (logs.map (fun r => (cellNum r i).getD 0)).sum)
  | [], q, _ => by simp
  | r :: rest, q, h => by
    obtain ⟨v, hv⟩ := Option.isSome_iff_exists.mp (h r (List.mem_cons_self _ _))
    have ih := foldl_jsAdd_some i rest (q + v)
      (fun x hx => h x (List.mem_cons_of_mem _ hx))
    have hstep : jsAdd (some q) (cellNum r i) = some (q + v) := by
      rw [hv]
      rfl
    rw [List.foldl_cons, hstep, ih, List.map_cons, List.sum_cons, hv]
    simp only [Option.getD_some, Option.some.injEq]
    ring

theorem colTotal_eq_sum (logs : List SheetRow) (i : Nat)
    (h : ∀ r ∈ logs, (cellNum r i).isSome) :
    colTotal logs i = some ((logs.map (fun r => (cellNum r i).getD 0)).sum) := by
  have := foldl_jsAdd_some i logs 0 h
  simpa [colTotal] using this

/-- C5 counterexample: a row whose kcal cell is the non-numeric,
non-empty string `"abc"` drives the kcal total to `NaN` (`none`), not to
the `0` the claim asserts. -/
theorem summary_nonNumeric_counterexample :
    colTotal [["2026-01-01", "12:00", "2026-01-01", "昼食", "bread", "abc"]] 5 = none
    ∧ colTotal [["2026-01-01", "12:00", "2026-01-01", "昼食", "bread", "abc"]] 5 ≠
        some 0 :=
  ⟨rfl, fun h => Option.noConfusion (rfl.trans h :
    (none : JsNum) = some 0)⟩

/-- C5 (amended): over a concrete range with parseable endpoints
`start ≤ end`, the aggregation sums each of the nine nutrient columns
over all rows — a missing or empty cell counts as 0 and a numeric cell
as its value, while a non-numeric non-empty cell makes that total `NaN`
— uses the day count `(end − start) + 1 ≥ 1`, reports per nutrient the
total and the per-day average `total ÷ day-count`, each rounded to one
decimal place; an empty row set is answered with the fixed "no records"
reply instead of a zero summary. -/
theorem summary_aggregation_spec (rt : JsRuntime) (logs : List SheetRow)
    (start stop : String) (a b : Int) (env : Env) (tok : String)
    (hstart : rt.parseDay start = some a) (hstop : rt.parseDay stop = some b)
    (hab : a ≤ b) :
    (daysOf rt start stop = some (((b - a : Int) : ℚ) + 1)
      ∧ (1 : ℚ) ≤ ((b - a : Int) : ℚ) + 1)
    ∧ ((buildSummary rt logs start stop).lines =
        nutrientSpecs.map (fun spec =>
          { label := spec.1
            total := toFixed1 (colTotal logs spec.2.1)
            avg := toFixed1 (jsDiv (colTotal logs spec.2.1)
              (some (((b - a : Int) : ℚ) + 1)))
            unit := spec.2.2 }))
    ∧ (∀ i, (∀ r ∈ logs, (cellNum r i).isSome) →
        colTotal logs i = some ((logs.map (fun r => (cellNum r i).getD 0)).sum))
    ∧ (∀ r ∈ logs, ∀ i, r.get? i = none ∨ r.get? i = some "" →
        cellNum r i = some 0)
    ∧ (summarizeAndReply env tok [] start stop =
        ([Effect.reply tok ReplyMsg.noRecords], false)) := by
  have hdays : daysOf rt start stop = some (((b - a : Int) : ℚ) + 1) := by
    simp [daysOf, hstart, hstop]
  refine ⟨⟨hdays, ?_⟩, ?_, fun i h => colTotal_eq_sum logs i h, ?_, rfl⟩
  · have h0 : (0 : ℚ) ≤ ((b - a : Int) : ℚ) := by
      exact_mod_cast sub_nonneg.mpr hab
    linarith
  · simp only [buildSummary, hdays]
  · intro r _ i hcell
    rcases hcell with hnone | hempty
    · rw [List.get?_eq_getElem?] at hnone
      simp [cellNum, hnone]
    · rw [List.get?_eq_getElem?] at hempty
      simp [cellNum, hempty]

/-- Witness for C5: the one-day range 19999–20000 resolves to a
day-count of 2, and an empty row set yields the "no records" reply. -/
theorem summary_aggregation_witness :
    daysOf rtFix "19999" "20000" = some (((20000 - 19999 : Int) : ℚ) + 1)
    ∧ summarizeAndReply envQuiet "t" [] "19999" "20000" =
        ([Effect.reply "t" ReplyMsg.noRecords], false) :=
  ⟨(summary_aggregation_spec rtFix [rowA, rowB] "19999" "20000" 19999 20000
      envQuiet "t" (by decide) (by decide) (by decide)).1.1,
    (summary_aggregation_spec rtFix [rowA, rowB] "19999" "20000" 19999 20000
      envQuiet "t" (by decide) (by decide) (by decide)).2.2.2.2⟩
